import Mathlib

/-!
Verification of the pySWATPlus repository material: the calibration example
notebook (docs/examples/calibration.ipynb) and the publish workflow
(.github/workflows/publish.yml). The notebook orchestrates two external
packages; their behavior, where a claim depends on it, is modelled from the
specification and marked as such on each definition.
-/

namespace PySWATPlus

/-- Directory paths in the model: user-supplied directories and temporary
directories handed out by the temporary-file facility. -/
inductive Path where
  | user (dir : String)
  | tmp (idx : Nat)
deriving DecidableEq

/-- Contents of a SWAT+ TxtInOut workspace directory: files with their
textual contents. -/
abbrev Workspace := List (String × String)

/-- One calibration parameter bound: row identifier, column name, lower
bound, upper bound — as in the notebook entry for `bana`, `bm_e`, 40, 50. -/
structure ParamChange where
  id : String
  col : String
  lb : ℚ
  ub : ℚ
deriving DecidableEq

/-- Calibration parameter specification: a mapping from a target file name to
a pair of (identifier column name, ordered list of parameter tuples). -/
abbrev ParamSpec := List (String × String × List ParamChange)

/-- Steps recorded by the model of an objective-function evaluation, in the
order they are performed. -/
inductive Event where
  | copySwat (src tmp : Path)
  | runSwat (dir : Path) (ps : ParamSpec)
  | rngDraw (q : ℚ)
deriving DecidableEq

/-- State of the outside world threaded through an evaluation: the file
system as an association list from directory paths to workspace contents,
the index of the next temporary directory the temporary-file facility will
hand out, and the stream of values fresh numpy random generators will
produce. -/
structure World where
  fs : List (Path × Workspace)
  nextTmp : Nat
  rngDraws : List ℚ
deriving DecidableEq

/-- First-match lookup in an association list. -/
def alookup {α β : Type} [DecidableEq α] : List (α × β) → α → Option β
  | [], _ => none
  | e :: rest, k => if e.1 = k then some e.2 else alookup rest k

/-- Modelled from the spec: the external reader component (pySWATPlus
`TxtinoutReader`, not included under the repository's visible source) wraps
a workspace directory path, exposed as `root_folder`. -/
structure TxtinoutReader where
  root_folder : Path
deriving DecidableEq

/-- Modelled from the spec: `TxtinoutReader.copy_swat` with target_dir None
duplicates the reader's workspace into a fresh temporary directory and
returns the new directory's path. The spec: an external reader component
duplicates the workspace. -/
def copy_swat (w : World) (reader : TxtinoutReader) : Path × World × List Event :=
  let tmp := Path.tmp w.nextTmp
  let content := (alookup w.fs reader.root_folder).getD []
  (tmp,
   { w with fs := (tmp, content) :: w.fs, nextTmp := w.nextTmp + 1 },
   [Event.copySwat reader.root_folder tmp])

/-- Modelled from the spec: `TxtinoutReader.run_swat` executes the simulation
with the supplied parameters inside the reader's own directory and returns
that directory's path. The black-box simulation itself is the parameter
`sim`, mapping the parameter specification and the old workspace contents to
the new contents. -/
def run_swat (sim : ParamSpec → Workspace → Workspace) (w : World)
    (reader : TxtinoutReader) (ps : ParamSpec) : Path × World × List Event :=
  let content := (alookup w.fs reader.root_folder).getD []
  (reader.root_folder,
   { w with fs := (reader.root_folder, sim ps content) :: w.fs },
   [Event.runSwat reader.root_folder ps])

/-- Modelled from numpy as the notebook uses it: `np.random.default_rng()`
followed by `.random()` draws the next value of the entropy stream carried by
the world. -/
def default_rng_random (w : World) : ℚ × World × List Event :=
  let q := w.rngDraws.headD 0
  (q, { w with rngDraws := w.rngDraws.tail }, [Event.rngDraw q])

/-- Argument dictionary given to the objective function; the notebook's
problem wrapper builds it with the calibration parameters bound under the
key named by `param_arg_name` together with the extra argument
`path_to_txtinout`. -/
structure DictOfParams where
  calibration_params : ParamSpec
  path_to_txtinout : Path
deriving DecidableEq

/-- The notebook's objective function `function_to_minimize`: copy the SWAT+
project at `path_to_txtinout` to a temporary directory, run SWAT+ there with
the supplied calibration parameters, and return a placeholder random error
metric together with the mapping from `test_calibration` to the result
reader's root folder. Returns the result pair, the final world, and the
trace of performed steps. -/
def function_to_minimize (sim : ParamSpec → Workspace → Workspace) (w : World)
    (dict_of_params : DictOfParams) :
    (ℚ × List (String × Path)) × World × List Event :=
  let calibration_params := dict_of_params.calibration_params
  let path_to_txtinout := dict_of_params.path_to_txtinout
  let reader := TxtinoutReader.mk path_to_txtinout
  let c := copy_swat w reader
  let tmp_path := c.1
  let reader2 := TxtinoutReader.mk tmp_path
  let r := run_swat sim c.2.1 reader2 calibration_params
  let txt_in_out_result := r.1
  let result_reader := TxtinoutReader.mk txt_in_out_result
  let g := default_rng_random r.2.1
  ((g.1, [("test_calibration", result_reader.root_folder)]),
   g.2.1, c.2.2 ++ (r.2.2 ++ g.2.2))

/-- Modelled from the spec: the external optimization-problem wrapper
`SWATProblem`, configured by the notebook with the calibration parameter
specification, the objective's argument name, the optional thread-based
parallelization settings, and the pass-through argument
`path_to_txtinout`. -/
structure SWATProblem where
  params : ParamSpec
  param_arg_name : String
  n_workers : Nat
  parallelization : String
  debug : Bool
  path_to_txtinout : Path

/-- Modelled from the spec: the wrapper passes the parameter specification
through unchanged, binding it in the dictionary handed to the objective
together with the extra argument `path_to_txtinout`. -/
def SWATProblem.buildDict (p : SWATProblem) : DictOfParams :=
  { calibration_params := p.params, path_to_txtinout := p.path_to_txtinout }

/-- Record of one objective evaluation during the optimization: the proposed
parameter vector, the fitness value returned, and the returned mapping from
label to output location. -/
structure EvalRec where
  x : List ℚ
  fitness : ℚ
  locations : List (String × Path)
deriving DecidableEq

/-- Modelled from the spec: the optimizer repeatedly proposes parameter
vectors, invoking the scoring function as its objective; the proposed
candidate vectors are evaluated in order, threading the world. -/
def runEvals (sim : ParamSpec → Workspace → Workspace) (problem : SWATProblem) :
    World → List (List ℚ) → List EvalRec × World × List Event
  | w, [] => ([], w, [])
  | w, x :: xs =>
    let r := function_to_minimize sim w problem.buildDict
    let rest := runEvals sim problem r.2.1 xs
    ({ x := x, fitness := r.1.1, locations := r.1.2 } :: rest.1,
     rest.2.1, r.2.2 ++ rest.2.2)

/-- Running minimum by fitness over a list of evaluation records. -/
def bestOf : EvalRec → List EvalRec → EvalRec
  | e, [] => e
  | e, c :: cs => bestOf (if c.fitness < e.fitness then c else e) cs

/-- Best (lowest-fitness) evaluation record of a list, with a default for
the empty list. -/
def argminFitness : List EvalRec → EvalRec
  | [] => { x := [], fitness := 0, locations := [] }
  | e :: rest => bestOf e rest

/-- The pymoo algorithm object as configured in the notebook: a CMA-ES
instance with an initial point; `proposals` models the stream of candidate
parameter vectors the stochastic algorithm will propose. -/
structure Algorithm where
  x0 : List ℚ
  proposals : List (List ℚ)

/-- The pymoo termination object built by get_termination: stop after
`n_eval` objective evaluations. -/
structure Termination where
  n_eval : Nat

/-- Modelled from the spec: `minimize_pymoo` runs the external optimizer on
the problem until the termination criterion is met (at most `n_eval`
evaluations of proposed candidates) and hands the caller the best parameter
vector, its associated output location, and its fitness value, in this
order. -/
def minimize_pymoo (sim : ParamSpec → Workspace → Workspace)
    (problem : SWATProblem) (algorithm : Algorithm)
    (termination : Termination) (verbose : Bool) (w : World) :
    (List ℚ × List (String × Path) × ℚ) × World × List Event :=
  let r := runEvals sim problem w (algorithm.proposals.take termination.n_eval)
  let b := argminFitness r.1
  ((b.x, b.locations, b.fitness), r.2.1, r.2.2)

/-- A path avoids all temporary-directory indices at or above `n`. -/
def tmpIdxLt (n : Nat) : Path → Bool
  | Path.tmp k => decide (k < n)
  | Path.user _ => true

/-- The world's file system only mentions temporary directories already
handed out, so every further temporary directory is fresh. -/
def freshOK (w : World) : Bool :=
  w.fs.all (fun e => tmpIdxLt w.nextTmp e.1)

/-- The notebook's path to the SWAT+ TxtInOut folder. -/
def txtinout_folder : Path :=
  Path.user ("/mnt/c/Users/joans/OneDrive/Escriptori/icra/muga_windows")

/-- The notebook's calibration parameter specification for the plants.plt
file; the harv_idx bounds are the notebook's 0.4 and 0.5. -/
def notebook_params : ParamSpec :=
  [("plants.plt", "name",
    [{ id := "bana", col := "bm_e", lb := 40, ub := 50 },
     { id := "bana", col := "harv_idx", lb := mkRat 2 5, ub := mkRat 1 2 }])]

/-- The notebook's SWATProblem instance. -/
def swat_problem : SWATProblem :=
  { params := notebook_params,
    param_arg_name := "calibration_params",
    n_workers := 4,
    parallelization := "threads",
    debug := false,
    path_to_txtinout := txtinout_folder }

/-- Concrete world used by the witnesses: the notebook workspace exists and
the entropy stream starts at one third. -/
def wEx : World :=
  { fs := [(txtinout_folder, [("plants.plt", "plantdata")])],
    nextTmp := 0,
    rngDraws := [mkRat 1 3] }

/-- Concrete argument dictionary used by the witnesses. -/
def dEx : DictOfParams :=
  { calibration_params := notebook_params, path_to_txtinout := txtinout_folder }

/-- Concrete black-box simulation used by the witnesses: it leaves the
workspace contents unchanged. -/
def simEx : ParamSpec → Workspace → Workspace := fun _ c => c

/-- Concrete algorithm used by the witnesses: one proposal; the second
coordinate is 0.45. -/
def algEx : Algorithm :=
  { x0 := [41, mkRat 9 20], proposals := [[41, mkRat 9 20]] }

/-- Concrete termination used by the witnesses: one evaluation. -/
def termEx : Termination := { n_eval := 1 }

/-- Glob matching over tag names, as used by the workflow trigger list; the
star matches any (possibly empty) sequence of characters. -/
def globMatch : List Char → List Char → Bool
  | [], s => s.isEmpty
  | p :: ps, s =>
    if p = '*' then
      globMatch ps s ||
        (match s with
         | [] => false
         | _ :: s2 => globMatch (p :: ps) s2)
    else
      match s with
      | [] => false
      | c :: s2 => decide (p = c) && globMatch ps s2
termination_by p s => p.length + s.length

/-- A Git push event as the workflow trigger sees it: the pushed tag name
when the pushed ref is a tag, and none for a push that carries no tag. -/
structure PushEvent where
  tag : Option (List Char)

/-- The tag patterns of the publish workflow trigger, from on.push.tags in
publish.yml: just the single pattern v-star. -/
def publishTagPatterns : List (List Char) := [['v', '*']]

/-- The publish workflow starts exactly when the push carries a tag matching
one of the configured tag patterns. -/
def publishTriggers (ev : PushEvent) : Bool :=
  match ev.tag with
  | some name => publishTagPatterns.any (fun p => globMatch p name)
  | none => false

/-- Outcome of a job in a workflow run. -/
inductive JobResult where
  | success
  | failure
  | skipped
deriving DecidableEq

/-- The jobs declared in publish.yml, named build-and-publish and
deploy-docs in the source. -/
inductive JobId where
  | buildAndPublish
  | deployDocs
deriving DecidableEq

/-- The jobs of the publish workflow in scheduling order: deploy-docs
declares needs build-and-publish, so it is ordered after it. -/
def publishJobs : List JobId := [JobId.buildAndPublish, JobId.deployDocs]

/-- The needs dependencies declared in publish.yml: deploy-docs needs
build-and-publish. -/
def needsOf : JobId → List JobId
  | JobId.deployDocs => [JobId.buildAndPublish]
  | JobId.buildAndPublish => []

/-- GitHub Actions gating for a job without an if override: it starts only
when every job it needs has completed with success. -/
def jobRuns (done : List (JobId × JobResult)) (j : JobId) : Bool :=
  (needsOf j).all (fun n => decide (alookup done n = some JobResult.success))

/-- Execute the workflow's jobs in order; `outcome j = true` means job `j`
would succeed if it were started. A job whose needed jobs did not all
succeed is skipped and never starts. -/
def runWorkflow (outcome : JobId → Bool) : List (JobId × JobResult) :=
  publishJobs.foldl
    (fun done j =>
      done ++ [(j, if jobRuns done j then
                     (if outcome j then JobResult.success else JobResult.failure)
                   else JobResult.skipped)])
    []

/-- Literal front-of-word pattern test, as bash applies a wildcard-free
pattern. -/
def isLitPre : List Char → List Char → Bool
  | [], _ => true
  | _ :: _, [] => false
  | p :: ps, c :: s => decide (p = c) && isLitPre ps s

/-- Bash shortest-match removal of a wildcard-free pattern from the front of
a word, as the workflow's version step does to GITHUB_REF. -/
def hashStripFront (pat s : List Char) : List Char :=
  if isLitPre pat s then s.drop pat.length else s

/-- The characters of the literal pattern the version step strips from the
front of the triggering ref. -/
def refsTagsV : List Char := "refs/tags/v".toList

/-- The workflow step with id get_version: TAG_VERSION is GITHUB_REF with
the shortest front match of the pattern removed, and VERSION is set to
TAG_VERSION. -/
def get_version (github_ref : List Char) : List Char :=
  hashStripFront refsTagsV github_ref

/-- The result pair of the objective function, computed: the head of the
entropy stream and the singleton output mapping at the fresh temporary
directory. -/
theorem function_to_minimize_result (sim : ParamSpec → Workspace → Workspace)
    (w : World) (d : DictOfParams) :
    (function_to_minimize sim w d).1 =
      (w.rngDraws.headD 0, [("test_calibration", Path.tmp w.nextTmp)]) := rfl

/-- The step trace of the objective function, computed. -/
theorem function_to_minimize_trace (sim : ParamSpec → Workspace → Workspace)
    (w : World) (d : DictOfParams) :
    (function_to_minimize sim w d).2.2 =
      [Event.copySwat d.path_to_txtinout (Path.tmp w.nextTmp),
       Event.runSwat (Path.tmp w.nextTmp) d.calibration_params,
       Event.rngDraw (w.rngDraws.headD 0)] := rfl

/-- A successful association-list lookup exhibits a member. -/
theorem alookup_eq_some_mem {α β : Type} [DecidableEq α] :
    ∀ (l : List (α × β)) (k : α) (v : β), alookup l k = some v → (k, v) ∈ l := by
  intro l
  induction l with
  | nil => intro k v h; simp [alookup] at h
  | cons e rest ih =>
    intro k v h
    by_cases he : e.1 = k
    · rw [alookup, if_pos he] at h
      have : e = (k, v) := by
        cases e with
        | mk a b =>
          simp only at he
          simp only [Option.some.injEq] at h
          rw [he, h.symm]
      rw [← this]
      exact List.mem_cons_self e rest
    · rw [alookup, if_neg he] at h
      exact List.mem_cons_of_mem e (ih k v h)

/-- Lookup skips an entry with a different key. -/
theorem alookup_cons_ne {α β : Type} [DecidableEq α] (a : α × β)
    (l : List (α × β)) (k : α) (hne : a.1 ≠ k) :
    alookup (a :: l) k = alookup l k := by
  rw [alookup, if_neg hne]

/-- C1: every invocation of function_to_minimize performs, in this order, a
copy of the workspace at path_to_txtinout into a temporary directory, a
SWAT+ run on that copy with the supplied calibration parameters, and a draw
from a fresh random generator whose value is the returned error metric; the
metric is computed without reading the simulation output, being identical
under every simulation behavior. -/
theorem function_to_minimize_steps (sim : ParamSpec → Workspace → Workspace)
    (w : World) (d : DictOfParams) :
    (function_to_minimize sim w d).2.2 =
      [Event.copySwat d.path_to_txtinout (Path.tmp w.nextTmp),
       Event.runSwat (Path.tmp w.nextTmp) d.calibration_params,
       Event.rngDraw ((function_to_minimize sim w d).1.1)] ∧
    ∀ sim2 : ParamSpec → Workspace → Workspace,
      (function_to_minimize sim2 w d).1.1 = (function_to_minimize sim w d).1.1 :=
  ⟨rfl, fun _ => rfl⟩

/-- C4: every evaluation result of the objective function is a pair whose
first component is the scalar fitness value and whose second component is a
mapping from the label test_calibration to an output location. -/
theorem function_to_minimize_result_pair (sim : ParamSpec → Workspace → Workspace)
    (w : World) (d : DictOfParams) :
    ∃ (q : ℚ) (p : Path),
      (function_to_minimize sim w d).1 = (q, [("test_calibration", p)]) :=
  ⟨w.rngDraws.headD 0, Path.tmp w.nextTmp, function_to_minimize_result sim w d⟩

/-- C9: the fitness value returned by function_to_minimize lies in the
half-open unit interval whenever the fresh generator's draws do, and it does
not depend on the calibration parameters, the workspace path, or the
simulation behavior. -/
theorem function_to_minimize_fitness (sim : ParamSpec → Workspace → Workspace)
    (w : World) (d : DictOfParams)
    (h : ∀ q ∈ w.rngDraws, 0 ≤ q ∧ q < 1) :
    (0 ≤ (function_to_minimize sim w d).1.1 ∧
      (function_to_minimize sim w d).1.1 < 1) ∧
    ∀ (sim2 : ParamSpec → Workspace → Workspace) (d2 : DictOfParams),
      (function_to_minimize sim2 w d2).1.1 = (function_to_minimize sim w d).1.1 := by
  refine ⟨?_, fun _ _ => rfl⟩
  have hres : (function_to_minimize sim w d).1.1 = w.rngDraws.headD 0 := rfl
  rw [hres]
  cases hw : w.rngDraws with
  | nil => exact ⟨le_refl 0, by norm_num⟩
  | cons q rest =>
    have hq := h q (by rw [hw]; exact List.mem_cons_self q rest)
    simpa using hq

/-- Witness for C9 at a concrete world. -/
theorem function_to_minimize_fitness_witness :
    (∀ q ∈ wEx.rngDraws, 0 ≤ q ∧ q < 1) ∧
    ((0 ≤ (function_to_minimize simEx wEx dEx).1.1 ∧
       (function_to_minimize simEx wEx dEx).1.1 < 1) ∧
     ∀ (sim2 : ParamSpec → Workspace → Workspace) (d2 : DictOfParams),
       (function_to_minimize sim2 wEx d2).1.1 =
         (function_to_minimize simEx wEx dEx).1.1) :=
  ⟨by decide, function_to_minimize_fitness simEx wEx dEx (by decide)⟩

/-- C8: the notebook configures the calibration problem's optional
parallelization mode with 4 workers and thread-based parallelization. -/
theorem swat_problem_parallelization :
    swat_problem.n_workers = 4 ∧ swat_problem.parallelization = "threads" :=
  ⟨rfl, rfl⟩

/-- A literal pattern matches the front of any word it starts. -/
theorem isLitPre_append (pat rest : List Char) :
    isLitPre pat (pat ++ rest) = true := by
  induction pat with
  | nil => rfl
  | cons p ps ih => simp [isLitPre, ih]

/-- C10: for a triggering ref of the form refs/tags/vX, the version step
sets VERSION to exactly X, the full ref with the leading refs/tags/v
stripped. -/
theorem get_version_strips (x : List Char) :
    get_version (refsTagsV ++ x) = x := by
  have h := isLitPre_append refsTagsV x
  rw [get_version, hashStripFront, if_pos h, List.drop_left]

/-- C3: the evaluation duplicates the workspace into a fresh temporary
directory, the simulation runs on that duplicate with the supplied
parameters, and the original workspace directory named by path_to_txtinout
is left unchanged. -/
theorem function_to_minimize_frame (sim : ParamSpec → Workspace → Workspace)
    (w : World) (d : DictOfParams)
    (hfresh : freshOK w = true)
    (hdom : (alookup w.fs d.path_to_txtinout).isSome = true) :
    Path.tmp w.nextTmp ≠ d.path_to_txtinout ∧
    (function_to_minimize sim w d).2.2 =
      [Event.copySwat d.path_to_txtinout (Path.tmp w.nextTmp),
       Event.runSwat (Path.tmp w.nextTmp) d.calibration_params,
       Event.rngDraw (w.rngDraws.headD 0)] ∧
    alookup (function_to_minimize sim w d).2.1.fs d.path_to_txtinout =
      alookup w.fs d.path_to_txtinout := by
  obtain ⟨v, hv⟩ := Option.isSome_iff_exists.mp hdom
  have hmem := alookup_eq_some_mem w.fs d.path_to_txtinout v hv
  have hlt : tmpIdxLt w.nextTmp d.path_to_txtinout = true := by
    have hall := List.all_eq_true.mp hfresh
    exact hall (d.path_to_txtinout, v) hmem
  have hne : Path.tmp w.nextTmp ≠ d.path_to_txtinout := by
    intro he
    rw [← he] at hlt
    simp [tmpIdxLt] at hlt
  refine ⟨hne, function_to_minimize_trace sim w d, ?_⟩
  obtain ⟨a, b, hab⟩ :
      ∃ a b : Workspace,
        (function_to_minimize sim w d).2.1.fs =
          (Path.tmp w.nextTmp, a) :: (Path.tmp w.nextTmp, b) :: w.fs :=
    ⟨_, _, rfl⟩
  rw [hab, alookup_cons_ne _ _ _ hne, alookup_cons_ne _ _ _ hne]

/-- Witness for C3 at a concrete world, dictionary and simulation. -/
theorem function_to_minimize_frame_witness :
    (freshOK wEx = true ∧ (alookup wEx.fs dEx.path_to_txtinout).isSome = true) ∧
    (Path.tmp wEx.nextTmp ≠ dEx.path_to_txtinout ∧
     (function_to_minimize simEx wEx dEx).2.2 =
       [Event.copySwat dEx.path_to_txtinout (Path.tmp wEx.nextTmp),
        Event.runSwat (Path.tmp wEx.nextTmp) dEx.calibration_params,
        Event.rngDraw (wEx.rngDraws.headD 0)] ∧
     alookup (function_to_minimize simEx wEx dEx).2.1.fs dEx.path_to_txtinout =
       alookup wEx.fs dEx.path_to_txtinout) :=
  ⟨⟨by decide, by decide⟩,
   function_to_minimize_frame simEx wEx dEx (by decide) (by decide)⟩

/-- The lone star pattern matches every word. -/
theorem globMatch_star_all (s : List Char) : globMatch ['*'] s = true := by
  induction s with
  | nil => simp [globMatch]
  | cons c s ih => simp [globMatch, ih]

/-- The pattern v-star matches exactly the words that start with v. -/
theorem globMatch_vstar (name : List Char) :
    globMatch ['v', '*'] name = true ↔ ∃ rest, name = 'v' :: rest := by
  cases name with
  | nil =>
    constructor
    · intro h; simp [globMatch] at h
    · rintro ⟨rest, hr⟩; cases hr
  | cons c s =>
    constructor
    · intro h
      simp only [globMatch, globMatch_star_all] at h
      have hcv : c = 'v' := by
        by_cases hv : ('v' : Char) = c
        · exact hv.symm
        · simp [hv] at h
      exact ⟨s, by rw [hcv]⟩
    · rintro ⟨rest, hr⟩
      rw [hr]
      simp [globMatch, globMatch_star_all]

/-- C6: the publish workflow is triggered exactly when the push carries a
tag whose name matches the version-tag pattern, i.e. starts with v; a push
carrying no such tag never starts the pipeline. -/
theorem publish_trigger_iff (ev : PushEvent) :
    publishTriggers ev = true ↔
      ∃ name rest, ev.tag = some name ∧ name = 'v' :: rest := by
  cases ev with
  | mk tag =>
    cases tag with
    | none => simp [publishTriggers]
    | some name =>
      simp only [publishTriggers, publishTagPatterns, List.any_cons,
        List.any_nil, Bool.or_false, globMatch_vstar]
      constructor
      · rintro ⟨rest, hr⟩; exact ⟨name, rest, rfl, hr⟩
      · rintro ⟨name2, rest, hsome, hr⟩
        cases hsome
        exact ⟨rest, hr⟩

/-- C7: in every run of the publish workflow, deploy-docs produces a real
result exactly when build-and-publish succeeded, and is skipped exactly
when build-and-publish failed: the documentation job starts only after a
successful build-and-publish, and if publishing fails the documentation is
never deployed. -/
theorem deploy_docs_gated (outcome : JobId → Bool) :
    (alookup (runWorkflow outcome) JobId.deployDocs =
        some (if outcome JobId.deployDocs then JobResult.success
              else JobResult.failure)
      ↔ outcome JobId.buildAndPublish = true) ∧
    (alookup (runWorkflow outcome) JobId.deployDocs = some JobResult.skipped
      ↔ outcome JobId.buildAndPublish = false) := by
  cases hb : outcome JobId.buildAndPublish <;>
    cases hd : outcome JobId.deployDocs <;>
      simp [runWorkflow, publishJobs, jobRuns, needsOf, alookup, hb, hd]

/-- The two-way minimum by fitness is below both of its arguments. -/
theorem iteMin_le (c e : EvalRec) :
    (if c.fitness < e.fitness then c else e).fitness ≤ e.fitness ∧
    (if c.fitness < e.fitness then c else e).fitness ≤ c.fitness := by
  by_cases hc : c.fitness < e.fitness
  · rw [if_pos hc]; exact ⟨le_of_lt hc, le_refl _⟩
  · rw [if_neg hc]; exact ⟨le_refl _, le_of_not_lt hc⟩

/-- The running minimum is one of the inspected records. -/
theorem bestOf_mem (cs : List EvalRec) :
    ∀ e : EvalRec, bestOf e cs ∈ e :: cs := by
  induction cs with
  | nil => intro e; simp [bestOf]
  | cons c cs ih =>
    intro e
    have hb : bestOf e (c :: cs) =
        bestOf (if c.fitness < e.fitness then c else e) cs := rfl
    rw [hb]
    rcases List.mem_cons.mp (ih (if c.fitness < e.fitness then c else e)) with h1 | h1
    · rw [h1]
      by_cases hc : c.fitness < e.fitness <;> simp [hc]
    · exact List.mem_cons_of_mem _ (List.mem_cons_of_mem _ h1)

/-- The running minimum's fitness never exceeds the seed's fitness. -/
theorem bestOf_le_seed (cs : List EvalRec) :
    ∀ e : EvalRec, (bestOf e cs).fitness ≤ e.fitness := by
  induction cs with
  | nil => intro e; exact le_refl _
  | cons c cs ih =>
    intro e
    exact le_trans (ih (if c.fitness < e.fitness then c else e)) (iteMin_le c e).1

/-- The running minimum's fitness is a lower bound for every inspected
record's fitness. -/
theorem bestOf_le (cs : List EvalRec) :
    ∀ e : EvalRec, ∀ r ∈ e :: cs, (bestOf e cs).fitness ≤ r.fitness := by
  induction cs with
  | nil =>
    intro e r hr
    rcases List.mem_cons.mp hr with h | h
    · rw [h]; exact le_refl _
    · exact absurd h (List.not_mem_nil r)
  | cons c cs ih =>
    intro e r hr
    have hb : bestOf e (c :: cs) =
        bestOf (if c.fitness < e.fitness then c else e) cs := rfl
    rcases List.mem_cons.mp hr with h | h
    · rw [h, hb]
      exact le_trans (bestOf_le_seed cs _) (iteMin_le c e).1
    · rcases List.mem_cons.mp h with h2 | h2
      · rw [h2, hb]
        exact le_trans (bestOf_le_seed cs _) (iteMin_le c e).2
      · rw [hb]
        exact ih (if c.fitness < e.fitness then c else e) r
          (List.mem_cons_of_mem _ h2)

/-- The lowest-fitness record of a nonempty list belongs to the list and is
minimal in fitness. -/
theorem argminFitness_spec (l : List EvalRec) (h : l ≠ []) :
    argminFitness l ∈ l ∧ ∀ r ∈ l, (argminFitness l).fitness ≤ r.fitness := by
  cases l with
  | nil => exact absurd rfl h
  | cons e rest => exact ⟨bestOf_mem rest e, bestOf_le rest e⟩

/-- Evaluating a nonempty candidate list yields a nonempty evaluation
list. -/
theorem runEvals_ne_nil (sim : ParamSpec → Workspace → Workspace)
    (problem : SWATProblem) (w : World) (cands : List (List ℚ))
    (h : cands ≠ []) : (runEvals sim problem w cands).1 ≠ [] := by
  cases cands with
  | nil => exact absurd rfl h
  | cons x xs => simp [runEvals]

/-- C2: whenever at least one candidate is evaluated, minimize_pymoo returns
exactly three values in this order: the best evaluated parameter vector, the
output-location mapping associated with that best run, and its fitness
value, which is minimal among all evaluations. -/
theorem minimize_pymoo_returns_best (sim : ParamSpec → Workspace → Workspace)
    (problem : SWATProblem) (algorithm : Algorithm)
    (termination : Termination) (verbose : Bool) (w : World)
    (h : algorithm.proposals.take termination.n_eval ≠ []) :
    ∃ b ∈ (runEvals sim problem w
        (algorithm.proposals.take termination.n_eval)).1,
      (minimize_pymoo sim problem algorithm termination verbose w).1 =
        (b.x, b.locations, b.fitness) ∧
      ∀ r ∈ (runEvals sim problem w
          (algorithm.proposals.take termination.n_eval)).1,
        b.fitness ≤ r.fitness := by
  have hne := runEvals_ne_nil sim problem w _ h
  obtain ⟨hmem, hmin⟩ := argminFitness_spec _ hne
  exact ⟨argminFitness (runEvals sim problem w
    (algorithm.proposals.take termination.n_eval)).1, hmem, rfl, hmin⟩

/-- Witness for C2 at the notebook's problem with one concrete proposal. -/
theorem minimize_pymoo_returns_best_witness :
    (algEx.proposals.take termEx.n_eval ≠ []) ∧
    ∃ b ∈ (runEvals simEx swat_problem wEx
        (algEx.proposals.take termEx.n_eval)).1,
      (minimize_pymoo simEx swat_problem algEx termEx false wEx).1 =
        (b.x, b.locations, b.fitness) ∧
      ∀ r ∈ (runEvals simEx swat_problem wEx
          (algEx.proposals.take termEx.n_eval)).1,
        b.fitness ≤ r.fitness :=
  ⟨by decide,
   minimize_pymoo_returns_best simEx swat_problem algEx termEx false wEx
     (by decide)⟩

/-- Every SWAT+ run performed while evaluating candidates receives the
problem's parameter specification unchanged. -/
theorem runEvals_runSwat_params (sim : ParamSpec → Workspace → Workspace)
    (problem : SWATProblem) :
    ∀ (cands : List (List ℚ)) (w : World) (p : Path) (ps : ParamSpec),
      Event.runSwat p ps ∈ (runEvals sim problem w cands).2.2 →
        ps = problem.params := by
  intro cands
  induction cands with
  | nil =>
    intro w p ps h
    simp [runEvals] at h
  | cons x xs ih =>
    intro w p ps h
    have hsplit : (runEvals sim problem w (x :: xs)).2.2 =
        (function_to_minimize sim w problem.buildDict).2.2 ++
          (runEvals sim problem
            (function_to_minimize sim w problem.buildDict).2.1 xs).2.2 := rfl
    rw [hsplit] at h
    rcases List.mem_append.mp h with h1 | h2
    · rw [function_to_minimize_trace] at h1
      rcases List.mem_cons.mp h1 with hc | h1
      · simp at hc
      · rcases List.mem_cons.mp h1 with hc | h1
        · injection hc with hp hps
        · rcases List.mem_cons.mp h1 with hc | h1
          · simp at hc
          · exact absurd h1 (List.not_mem_nil _)
    · exact ih _ p ps h2

/-- C5: the calibration parameter specification — the mapping from target
file name to (identifier column name, ordered list of bound tuples) — is
used only as a pass-through: the dictionary handed to the objective binds it
unchanged, and every SWAT+ run performed during the optimization receives
exactly the problem's parameter mapping. -/
theorem params_pass_through (sim : ParamSpec → Workspace → Workspace)
    (problem : SWATProblem) (algorithm : Algorithm)
    (termination : Termination) (verbose : Bool) (w : World)
    (p : Path) (ps : ParamSpec)
    (h : Event.runSwat p ps ∈
      (minimize_pymoo sim problem algorithm termination verbose w).2.2) :
    ps = problem.params ∧
      (SWATProblem.buildDict problem).calibration_params = problem.params := by
  refine ⟨?_, rfl⟩
  have htr : (minimize_pymoo sim problem algorithm termination verbose w).2.2 =
      (runEvals sim problem w
        (algorithm.proposals.take termination.n_eval)).2.2 := rfl
  rw [htr] at h
  exact runEvals_runSwat_params sim problem _ w p ps h

/-- Witness for C5: the concrete run's trace contains a SWAT+ run event, and
its parameters are the notebook's specification. -/
theorem params_pass_through_witness :
    (Event.runSwat (Path.tmp 0) notebook_params ∈
       (minimize_pymoo simEx swat_problem algEx termEx false wEx).2.2) ∧
    (notebook_params = swat_problem.params ∧
      (SWATProblem.buildDict swat_problem).calibration_params =
        swat_problem.params) :=
  ⟨by decide,
   params_pass_through simEx swat_problem algEx termEx false wEx
     (Path.tmp 0) notebook_params (by decide)⟩

end PySWATPlus
